import Mathlib

/-!
Verification development for the fungible-token contract
(`src/FungibleTokenContract.ts`, `src/lib/configs.ts`, `src/lib/errors.js`).

Shallow embedding conventions:
* o1js `Field` values that hold packed configuration scalars are modelled as
  `Nat`; `Field.toBits(28)` / `Field.fromBits` become `natToBits 28` /
  `bitsToNat` over little-endian `List Bool` (bit 0 first), exactly as o1js
  orders bits.
* o1js `Int64` balance changes are modelled as `Int`; `Int64.isPositive()` in
  o1js v2 holds exactly for strictly positive values, modelled as `0 < t`.
* `PublicKey` values are modelled as `Nat` identifiers; `Bool` stays `Bool`.
* A failing in-circuit assertion aborts the whole method with its message, so
  every contract method is modelled as an `Except String _` computation whose
  first failing check determines the error; on failure no effect happens.
-/

-- ===========================================================================
-- Error messages (src/lib/errors.js, FungibleTokenErrors)
-- ===========================================================================

namespace FungibleTokenErrors

def noPermissionForSideloadDisabledOperation : String :=
  "Can\x27t use the method, side-loading is enabled in config"

def noTransferFromCirculation : String :=
  "Invalid operation: Cannot transfer to/from circulation tracking account"

def vKeyMapOutOfSync : String :=
  "Verification failed: Off-chain verification key map is out of sync with on-chain state"

def invalidOperationKey : String :=
  "Invalid operation key: Must be 1 (Mint), 2 (Burn), 3 (Transfer), or 4 (ApproveBase)"

def invalidSideLoadedVKey : String :=
  "Verification failed: Provided verification key does not match registered hash"

def missingVKeyForOperation : String :=
  "Missing verification key: No key registered for this operation type"

def recipientMismatch : String :=
  "Verification failed: Proof recipient does not match method parameter"

def tokenIdMismatch : String :=
  "Verification failed: Token ID in proof does not match contract token ID"

def incorrectMinaTokenId : String :=
  "Verification failed: Expected native MINA token ID (1)"

def minaBalanceMismatch : String :=
  "Verification failed: MINA balance changed between proof generation and verification"

def customTokenBalanceMismatch : String :=
  "Verification failed: Custom token balance changed between proof generation and verification"

def minaNonceMismatch : String :=
  "Verification failed: MINA account nonce changed between proof generation and verification"

def customTokenNonceMismatch : String :=
  "Verification failed: Custom token account nonce changed between proof generation and verification"

def flashMinting : String :=
  "Transaction invalid: Flash-minting detected. Ensure AccountUpdates are properly ordered and transaction is balanced"

def unbalancedTransaction : String :=
  "Transaction invalid: Token debits and credits do not balance to zero"

def noPermissionChangeAllowed : String :=
  "Permission denied: Cannot modify access or receive permissions on token accounts"

/-- Failure raised by `proof.verifyIf(vk, shouldVerify)` when the side-loaded
proof itself does not verify (o1js-level failure, no message in errors.js). -/
def sideLoadedProofDoesNotVerify : String :=
  "Verification failed: side-loaded proof does not verify against the provided key"

end FungibleTokenErrors

-- ===========================================================================
-- Operation keys and constants (src/lib/configs.ts)
-- ===========================================================================

namespace OperationKeys

def Mint : Nat := 1

def Burn : Nat := 2

def Transfer : Nat := 3

def ApproveBase : Nat := 4

end OperationKeys

def MINA_TOKEN_ID : Nat := 1

-- ===========================================================================
-- Little-endian bit codec (o1js Field.toBits / Field.fromBits)
-- ===========================================================================

/-- `Field.toBits(k)` of o1js: the `k` low bits of `n`, little-endian. -/
def natToBits : Nat → Nat → List Bool
  | 0, _ => []
  | k + 1, n => (n % 2 == 1) :: natToBits k (n / 2)

/-- `Field.fromBits` of o1js: rebuild a number from little-endian bits. -/
def bitsToNat : List Bool → Nat
  | [] => 0
  | b :: bs => (if b then 1 else 0) + 2 * bitsToNat bs

-- ===========================================================================
-- DynamicProofConfig codec (src/lib/configs.ts)
-- ===========================================================================

/-- The 7 policy flags of one dynamic-proof configuration record. -/
structure DynamicProofConfig where
  shouldVerify : Bool
  requireRecipientMatch : Bool
  requireTokenIdMatch : Bool
  requireMinaBalanceMatch : Bool
  requireCustomTokenBalanceMatch : Bool
  requireMinaNonceMatch : Bool
  requireCustomTokenNonceMatch : Bool
deriving DecidableEq, Repr

namespace DynamicProofConfig

/-- `toBits()`: the 7 flags, in declaration order (bit 0 = shouldVerify). -/
def toBits (c : DynamicProofConfig) : List Bool :=
  [c.shouldVerify, c.requireRecipientMatch, c.requireTokenIdMatch,
   c.requireMinaBalanceMatch, c.requireCustomTokenBalanceMatch,
   c.requireMinaNonceMatch, c.requireCustomTokenNonceMatch]

/-- The body of `unpack` after `toBits(28)`: slice bits
`[configIndex*7, configIndex*7+7)` and rebuild the record. -/
def unpackBits (bits : List Bool) (configIndex : Nat) : DynamicProofConfig :=
  let start := configIndex * 7
  let seg := (bits.drop start).take 7
  { shouldVerify := seg.getD 0 false
    requireRecipientMatch := seg.getD 1 false
    requireTokenIdMatch := seg.getD 2 false
    requireMinaBalanceMatch := seg.getD 3 false
    requireCustomTokenBalanceMatch := seg.getD 4 false
    requireMinaNonceMatch := seg.getD 5 false
    requireCustomTokenNonceMatch := seg.getD 6 false }

/-- `DynamicProofConfig.unpack(packedConfigs, configIndex)`. -/
def unpack (packedConfigs : Nat) (configIndex : Nat) : DynamicProofConfig :=
  unpackBits (natToBits 28 packedConfigs) configIndex

/-- `DynamicProofConfig.packConfigs(configs)`: requires exactly 4 records. -/
def packConfigs (configs : List DynamicProofConfig) : Except String Nat :=
  if configs.length = 4 then
    .ok (bitsToNat (configs.map toBits).flatten)
  else
    .error "Invalid configuration: Expected exactly 4 dynamic proof configurations"

/-- `updatePackedConfigs(packedConfigs, configIndex)`: replace the 7-bit
segment at `configIndex*7` with this record's bits. -/
def updatePackedConfigs (c : DynamicProofConfig) (packedConfigs : Nat)
    (configIndex : Nat) : Nat :=
  let bits := natToBits 28 packedConfigs
  let start := configIndex * 7
  bitsToNat (bits.take start ++ c.toBits ++ bits.drop (start + 7))

end DynamicProofConfig

-- ===========================================================================
-- Batch approval model (src/FungibleTokenContract.ts, internalApproveBase)
-- ===========================================================================

/-- o1js `Types.AuthRequired` permission values; `Permissions.none()` is
`AuthRequired.none`. -/
inductive AuthRequired where
  | none
  | either
  | proof
  | signature
  | impossible
deriving DecidableEq, Repr

/-- The `update.update.permissions` field of an account update: an optional
new permissions value carrying its `access` and `receive` components. -/
structure PermissionsUpdate where
  isSome : Bool
  access : AuthRequired
  receive : AuthRequired
deriving DecidableEq, Repr

/-- One account update of the forest, in `forEachUpdate` traversal order.
`usesToken` is the flag o1js passes to the callback; `balanceChange` is the
update's `Int64` balance change. -/
structure ApprovalNode where
  publicKey : Nat
  usesToken : Bool
  balanceChange : Int
  permissions : PermissionsUpdate
deriving DecidableEq, Repr

namespace FungibleToken

/-- The condition asserted by `checkPermissionsUpdate`: either the update does
not touch permissions, or both `access` and `receive` are `Permissions.none()`. -/
def checkPermissionsUpdateOk (update : ApprovalNode) : Bool :=
  let accessIsNone := update.permissions.access == AuthRequired.none
  let receiveIsNone := update.permissions.receive == AuthRequired.none
  (accessIsNone && receiveIsNone) || !update.permissions.isSome

/-- The body of the `forEachUpdate` callback in `internalApproveBase`:
permission-pinning check, circulation-account check, running-total update,
flash-minting check — in source order. -/
def approveStep (contractAddress : Nat) (totalBalance : Int)
    (update : ApprovalNode) : Except String Int :=
  if !(checkPermissionsUpdateOk update) then
    .error FungibleTokenErrors.noPermissionChangeAllowed
  else if update.publicKey == contractAddress && update.usesToken then
    .error FungibleTokenErrors.noTransferFromCirculation
  else
    let newTotal :=
      if update.usesToken then totalBalance + update.balanceChange
      else totalBalance
    if 0 < newTotal then .error FungibleTokenErrors.flashMinting
    else .ok newTotal

/-- Fold of `approveStep` over the forest in traversal order. -/
def approveLoop (contractAddress : Nat) :
    Int → List ApprovalNode → Except String Int
  | totalBalance, [] => .ok totalBalance
  | totalBalance, update :: rest =>
    match approveStep contractAddress totalBalance update with
    | .error e => .error e
    | .ok newTotal => approveLoop contractAddress newTotal rest

/-- `internalApproveBase(updates)`: traverse all updates, then assert the
final running total is exactly zero. -/
def internalApproveBase (contractAddress : Nat)
    (updates : List ApprovalNode) : Except String Unit :=
  match approveLoop contractAddress 0 updates with
  | .error e => .error e
  | .ok totalBalance =>
    if totalBalance = 0 then .ok ()
    else .error FungibleTokenErrors.unbalancedTransaction

end FungibleToken

/-- The balance deltas of the token-touching updates, in traversal order. -/
def tokenDeltas (updates : List ApprovalNode) : List Int :=
  (updates.filter (fun n => n.usesToken)).map (fun n => n.balanceChange)

/-- An update that passes both per-node checks of `internalApproveBase` that
are independent of the running total: the permission-pinning check and the
circulation-account check. -/
def nodeLegal (contractAddress : Nat) (n : ApprovalNode) : Prop :=
  FungibleToken.checkPermissionsUpdateOk n = true ∧
    ¬(n.publicKey = contractAddress ∧ n.usesToken = true)

instance (contractAddress : Nat) (n : ApprovalNode) :
    Decidable (nodeLegal contractAddress n) := by
  unfold nodeLegal; infer_instance

-- ===========================================================================
-- Side-loaded proof data model (src/lib/sideloaded.ts) and key registry
-- ===========================================================================

/-- A verification key, identified by its hash (the only field the contract
reads). -/
structure VerificationKey where
  hash : Nat
deriving DecidableEq, Repr

/-- Modelled from the external o1js `IndexedMerkleMap` (`VKeyMerkleMap`): an
operation-key → verification-key-hash map whose `root` is a deterministic
commitment to the entries (collision-resistance of the real Merkle root is
never used by the claims settled here). -/
structure VKeyMerkleMap where
  entries : List (Nat × Nat)
deriving DecidableEq, Repr

namespace VKeyMerkleMap

def getOption (m : VKeyMerkleMap) (key : Nat) : Option Nat :=
  (m.entries.find? (fun e => e.1 == key)).map (fun e => e.2)

def set (m : VKeyMerkleMap) (key value : Nat) : VKeyMerkleMap :=
  ⟨(key, value) :: m.entries.filter (fun e => e.1 != key)⟩

def root (m : VKeyMerkleMap) : Nat :=
  m.entries.foldl (fun acc e => Nat.pair acc (Nat.pair e.1 e.2)) 0

end VKeyMerkleMap

/-- An `AccountUpdate` carried in a proof's public output: the contract only
reads its `publicKey`/`tokenId` pair and the current on-chain state of that
account. -/
structure AccountUpdateData where
  publicKey : Nat
  tokenId : Nat
deriving DecidableEq, Repr

/-- `PublicInputs` of a side-loaded proof. -/
structure SLPublicInputs where
  tokenId : Nat
  address : Nat
deriving DecidableEq, Repr

/-- `PublicOutputs` of a side-loaded proof. -/
structure SLPublicOutputs where
  minaAccountData : AccountUpdateData
  tokenIdAccountData : AccountUpdateData
  minaBalance : Nat
  tokenIdBalance : Nat
  minaNonce : Nat
  tokenIdNonce : Nat
deriving DecidableEq, Repr

/-- A side-loaded proof (`SideloadedProof`): its public input/output; proof
validity itself is an opaque judgment supplied by the environment. -/
structure SideloadedProof where
  publicInput : SLPublicInputs
  publicOutput : SLPublicOutputs
deriving DecidableEq, Repr

/-- The chain environment the contract observes: its own address and derived
token id, the current on-chain balances/nonces consulted through account
preconditions, and the opaque cryptographic verdict of `proof.verifyIf`. -/
structure ChainEnv where
  contractAddress : Nat
  derivedTokenId : Nat
  accountBalance : Nat → Nat → Nat
  accountNonce : Nat → Nat → Nat
  proofValid : SideloadedProof → VerificationKey → Bool

/-- On-chain state of the contract used by the modelled methods. -/
structure ContractState where
  admin : Nat
  packedDynamicProofConfigs : Nat
  vKeyMapRoot : Nat
deriving DecidableEq, Repr

/-- Effects a successful method run imposes on the transaction, in order. -/
inductive TxAction where
  | requireSignature (publicKey : Nat)
  | mintTokens (recipient : Nat) (amount : Nat)
  | burnTokens (source : Nat) (amount : Nat)
  | sendTokens (source : Nat) (receiver : Nat) (amount : Nat)
deriving DecidableEq, Repr

/-- `PublicKey.empty()` passed as recipient by `approveBaseCustomWithProof`. -/
def emptyPublicKey : Nat := 0

-- ===========================================================================
-- Contract methods (src/FungibleTokenContract.ts)
-- ===========================================================================

namespace FungibleToken

/-- `verifySideLoadedProof`: each check is `Provable.if(shouldVerify, cond,
true).assertTrue(err)`, so it can only fail when `shouldVerify` is set; the
returned `Bool` records whether `proof.verifyIf(vk, shouldVerify)` performed
cryptographic verification (it does exactly when `shouldVerify`). -/
def verifySideLoadedProof (env : ChainEnv) (st : ContractState)
    (proof : SideloadedProof) (vk : VerificationKey) (recipient : Nat)
    (dynamicProofConfig : DynamicProofConfig) (vKeyMap : VKeyMerkleMap)
    (operationKey : Nat) : Except String Bool :=
  let shouldVerify := dynamicProofConfig.shouldVerify
  if shouldVerify && !(st.vKeyMapRoot == vKeyMap.root) then
    .error FungibleTokenErrors.vKeyMapOutOfSync
  else if shouldVerify && !(vKeyMap.getOption operationKey).isSome then
    .error FungibleTokenErrors.missingVKeyForOperation
  else if shouldVerify &&
      !(vk.hash == (vKeyMap.getOption operationKey).getD 0) then
    .error FungibleTokenErrors.invalidSideLoadedVKey
  else if shouldVerify && !((proof.publicInput.address == recipient) ||
      !dynamicProofConfig.requireRecipientMatch) then
    .error FungibleTokenErrors.recipientMismatch
  else if shouldVerify &&
      !((proof.publicOutput.tokenIdAccountData.tokenId == env.derivedTokenId) ||
        !dynamicProofConfig.requireTokenIdMatch) then
    .error FungibleTokenErrors.tokenIdMismatch
  else if shouldVerify &&
      !(proof.publicOutput.minaAccountData.tokenId == MINA_TOKEN_ID) then
    .error FungibleTokenErrors.incorrectMinaTokenId
  else if shouldVerify &&
      !((env.accountBalance proof.publicOutput.minaAccountData.publicKey
          proof.publicOutput.minaAccountData.tokenId ==
            proof.publicOutput.minaBalance) ||
        !dynamicProofConfig.requireMinaBalanceMatch) then
    .error FungibleTokenErrors.minaBalanceMismatch
  else if shouldVerify &&
      !((env.accountBalance proof.publicOutput.tokenIdAccountData.publicKey
          proof.publicOutput.tokenIdAccountData.tokenId ==
            proof.publicOutput.tokenIdBalance) ||
        !dynamicProofConfig.requireCustomTokenBalanceMatch) then
    .error FungibleTokenErrors.customTokenBalanceMismatch
  else if shouldVerify &&
      !((env.accountNonce proof.publicOutput.minaAccountData.publicKey
          proof.publicOutput.minaAccountData.tokenId ==
            proof.publicOutput.minaNonce) ||
        !dynamicProofConfig.requireMinaNonceMatch) then
    .error FungibleTokenErrors.minaNonceMismatch
  else if shouldVerify &&
      !((env.accountNonce proof.publicOutput.tokenIdAccountData.publicKey
          proof.publicOutput.tokenIdAccountData.tokenId ==
            proof.publicOutput.tokenIdNonce) ||
        !dynamicProofConfig.requireCustomTokenNonceMatch) then
    .error FungibleTokenErrors.customTokenNonceMismatch
  else if shouldVerify && !(env.proofValid proof vk) then
    .error FungibleTokenErrors.sideLoadedProofDoesNotVerify
  else
    .ok shouldVerify

/-- `#internalMint`: `ensureAdminSignature(Bool(true))` always imposes the
admin signature requirement, then the mint update is created and the
circulation-account check runs. -/
def internalMint (env : ChainEnv) (st : ContractState) (recipient : Nat)
    (amount : Nat) : Except String (List TxAction) :=
  if recipient == env.contractAddress then
    .error FungibleTokenErrors.noTransferFromCirculation
  else
    .ok [TxAction.requireSignature st.admin, TxAction.mintTokens recipient amount]

/-- `mint`: direct mode; requires `shouldVerify = false` for the Mint config. -/
def mint (env : ChainEnv) (st : ContractState) (recipient : Nat)
    (amount : Nat) : Except String (List TxAction) :=
  let mintDynamicProofConfig :=
    DynamicProofConfig.unpack st.packedDynamicProofConfigs 0
  if mintDynamicProofConfig.shouldVerify then
    .error FungibleTokenErrors.noPermissionForSideloadDisabledOperation
  else internalMint env st recipient amount

/-- `mintWithProof`: proof mode; verifies the side-loaded proof, then runs the
same internal mint path. -/
def mintWithProof (env : ChainEnv) (st : ContractState) (recipient : Nat)
    (amount : Nat) (proof : SideloadedProof) (vk : VerificationKey)
    (vKeyMap : VKeyMerkleMap) : Except String (List TxAction) :=
  let mintDynamicProofConfig :=
    DynamicProofConfig.unpack st.packedDynamicProofConfigs 0
  match verifySideLoadedProof env st proof vk recipient
      mintDynamicProofConfig vKeyMap OperationKeys.Mint with
  | .error e => .error e
  | .ok _ => internalMint env st recipient amount

/-- `#internalBurn`: burn update plus circulation-account check; no admin
signature. -/
def internalBurn (env : ChainEnv) (source : Nat) (amount : Nat) :
    Except String (List TxAction) :=
  if source == env.contractAddress then
    .error FungibleTokenErrors.noTransferFromCirculation
  else
    .ok [TxAction.burnTokens source amount]

/-- `burn`: direct mode; requires `shouldVerify = false` for the Burn config. -/
def burn (env : ChainEnv) (st : ContractState) (source : Nat)
    (amount : Nat) : Except String (List TxAction) :=
  let burnDynamicProofConfig :=
    DynamicProofConfig.unpack st.packedDynamicProofConfigs 1
  if burnDynamicProofConfig.shouldVerify then
    .error FungibleTokenErrors.noPermissionForSideloadDisabledOperation
  else internalBurn env source amount

/-- `burnWithProof`. -/
def burnWithProof (env : ChainEnv) (st : ContractState) (source : Nat)
    (amount : Nat) (proof : SideloadedProof) (vk : VerificationKey)
    (vKeyMap : VKeyMerkleMap) : Except String (List TxAction) :=
  let burnDynamicProofConfig :=
    DynamicProofConfig.unpack st.packedDynamicProofConfigs 1
  match verifySideLoadedProof env st proof vk source
      burnDynamicProofConfig vKeyMap OperationKeys.Burn with
  | .error e => .error e
  | .ok _ => internalBurn env source amount

/-- `internalTransfer`: neither endpoint may be the circulation account. -/
def internalTransfer (env : ChainEnv) (source receiver : Nat)
    (amount : Nat) : Except String (List TxAction) :=
  if source == env.contractAddress then
    .error FungibleTokenErrors.noTransferFromCirculation
  else if receiver == env.contractAddress then
    .error FungibleTokenErrors.noTransferFromCirculation
  else
    .ok [TxAction.sendTokens source receiver amount]

/-- `transferCustom`: direct mode. -/
def transferCustom (env : ChainEnv) (st : ContractState)
    (source receiver : Nat) (amount : Nat) : Except String (List TxAction) :=
  let transferDynamicProofConfig :=
    DynamicProofConfig.unpack st.packedDynamicProofConfigs 2
  if transferDynamicProofConfig.shouldVerify then
    .error FungibleTokenErrors.noPermissionForSideloadDisabledOperation
  else internalTransfer env source receiver amount

/-- `transferCustomWithProof`. -/
def transferCustomWithProof (env : ChainEnv) (st : ContractState)
    (source receiver : Nat) (amount : Nat) (proof : SideloadedProof)
    (vk : VerificationKey) (vKeyMap : VKeyMerkleMap) :
    Except String (List TxAction) :=
  let transferDynamicProofConfig :=
    DynamicProofConfig.unpack st.packedDynamicProofConfigs 2
  match verifySideLoadedProof env st proof vk source
      transferDynamicProofConfig vKeyMap OperationKeys.Transfer with
  | .error e => .error e
  | .ok _ => internalTransfer env source receiver amount

/-- `approveBaseCustom`: direct mode batch approval. -/
def approveBaseCustom (env : ChainEnv) (st : ContractState)
    (updates : List ApprovalNode) : Except String Unit :=
  let updatesDynamicProofConfig :=
    DynamicProofConfig.unpack st.packedDynamicProofConfigs 3
  if updatesDynamicProofConfig.shouldVerify then
    .error FungibleTokenErrors.noPermissionForSideloadDisabledOperation
  else internalApproveBase env.contractAddress updates

/-- `approveBaseCustomWithProof`: proof mode batch approval; the recipient
argument of the verification is `PublicKey.empty()`. -/
def approveBaseCustomWithProof (env : ChainEnv) (st : ContractState)
    (updates : List ApprovalNode) (proof : SideloadedProof)
    (vk : VerificationKey) (vKeyMap : VKeyMerkleMap) : Except String Unit :=
  let updatesDynamicProofConfig :=
    DynamicProofConfig.unpack st.packedDynamicProofConfigs 3
  match verifySideLoadedProof env st proof vk emptyPublicKey
      updatesDynamicProofConfig vKeyMap OperationKeys.ApproveBase with
  | .error e => .error e
  | .ok _ => internalApproveBase env.contractAddress updates

/-- `updateSideLoadedVKeyHash`: admin-signed (signature requirement elided
from the result); root-sync check, operation-key validity check, then the
map update and new root publication. -/
def updateSideLoadedVKeyHash (st : ContractState) (vKey : VerificationKey)
    (vKeyMap : VKeyMerkleMap) (operationKey : Nat) :
    Except String (ContractState × VKeyMerkleMap) :=
  if !(st.vKeyMapRoot == vKeyMap.root) then
    .error FungibleTokenErrors.vKeyMapOutOfSync
  else if !(operationKey == OperationKeys.Mint ||
      operationKey == OperationKeys.Burn ||
      operationKey == OperationKeys.Transfer ||
      operationKey == OperationKeys.ApproveBase) then
    .error FungibleTokenErrors.invalidOperationKey
  else
    let newVKeyHash := vKey.hash
    let newMap := vKeyMap.set operationKey newVKeyHash
    .ok ({ st with vKeyMapRoot := newMap.root }, newMap)

/-- The packed-scalar computation of `updateDynamicProofConfig`: the four
candidate spliced fields built with `allBits.slice`, selected by
`Provable.switch` on the operation type. -/
def contractNewPackedConfig (operationType : Nat)
    (config : DynamicProofConfig) (packedConfigs : Nat) : Nat :=
  let allBits := natToBits 28 packedConfigs
  let configBits := config.toBits
  if operationType == OperationKeys.Mint then
    bitsToNat (configBits ++ (allBits.drop 7).take 21)
  else if operationType == OperationKeys.Burn then
    bitsToNat (allBits.take 7 ++ configBits ++ (allBits.drop 14).take 14)
  else if operationType == OperationKeys.Transfer then
    bitsToNat (allBits.take 14 ++ configBits ++ (allBits.drop 21).take 7)
  else
    bitsToNat (allBits.take 21 ++ configBits)

/-- `updateDynamicProofConfig`: admin-signed; validates the operation type,
then rewrites exactly the selected 7-bit segment. -/
def updateDynamicProofConfig (st : ContractState) (operationType : Nat)
    (config : DynamicProofConfig) : Except String ContractState :=
  if !(operationType == OperationKeys.Mint ||
      operationType == OperationKeys.Burn ||
      operationType == OperationKeys.Transfer ||
      operationType == OperationKeys.ApproveBase) then
    .error "Invalid operation type: must be Mint, Burn, Transfer, or ApproveBase"
  else
    .ok { st with packedDynamicProofConfigs :=
      contractNewPackedConfig operationType config st.packedDynamicProofConfigs }

end FungibleToken

-- ===========================================================================
-- Concrete fixtures (used by witnesses and counterexamples)
-- ===========================================================================

def envW : ChainEnv :=
  { contractAddress := 5, derivedTokenId := 7,
    accountBalance := fun _ _ => 0, accountNonce := fun _ _ => 0,
    proofValid := fun _ _ => true }

def stW : ContractState :=
  { admin := 9, packedDynamicProofConfigs := 0, vKeyMapRoot := 0 }

/-- State whose packed configs set `shouldVerify` for all four operations
(bits 0, 7, 14, 21): 1 + 2^7 + 2^14 + 2^21 = 2113665. -/
def stSLW : ContractState :=
  { admin := 9, packedDynamicProofConfigs := 2113665, vKeyMapRoot := 0 }

/-- State with a stale verification-key-map root. -/
def stStaleW : ContractState :=
  { admin := 9, packedDynamicProofConfigs := 0, vKeyMapRoot := 123 }

def vkW : VerificationKey := ⟨77⟩

def mapW : VKeyMerkleMap := ⟨[]⟩

def proofW : SideloadedProof :=
  { publicInput := { tokenId := 7, address := 3 }
    publicOutput :=
      { minaAccountData := ⟨3, 1⟩, tokenIdAccountData := ⟨3, 7⟩,
        minaBalance := 0, tokenIdBalance := 0, minaNonce := 0,
        tokenIdNonce := 0 } }

def cfgAllTrue : DynamicProofConfig := ⟨true, true, true, true, true, true, true⟩

def cfgAllFalse : DynamicProofConfig :=
  ⟨false, false, false, false, false, false, false⟩

def cfgSVOnly : DynamicProofConfig :=
  ⟨true, false, false, false, false, false, false⟩

/-- All match flags on but verification off: every substantive check would
fail against the fixtures if it were evaluated. -/
def cfgNoVerify : DynamicProofConfig := ⟨false, true, true, true, true, true, true⟩

def noPermChange : PermissionsUpdate := ⟨false, AuthRequired.none, AuthRequired.none⟩

def nodeP : ApprovalNode := ⟨1, true, 100, noPermChange⟩

def nodeN : ApprovalNode := ⟨2, true, -100, noPermChange⟩

/-- A token-touching node owned by the circulation account of `envW`. -/
def nodeCirc : ApprovalNode := ⟨5, true, 0, noPermChange⟩

/-- A node touching only foreign tokens that requests a `signature` access
permission. -/
def nodeBadPerm : ApprovalNode :=
  ⟨3, false, 0, ⟨true, AuthRequired.signature, AuthRequired.none⟩⟩

-- ===========================================================================
-- Lemmas: bit codec
-- ===========================================================================

theorem length_natToBits (k n : Nat) : (natToBits k n).length = k := by
  induction k generalizing n with
  | zero => rfl
  | succ k ih => simp [natToBits, ih]

theorem natToBits_bitsToNat (l : List Bool) :
    natToBits l.length (bitsToNat l) = l := by
  induction l with
  | nil => rfl
  | cons b bs ih =>
    simp only [List.length_cons, natToBits, bitsToNat]
    refine List.cons_eq_cons.mpr ⟨?_, ?_⟩
    · cases b with
      | true =>
        have : (1 + 2 * bitsToNat bs) % 2 = 1 := by omega
        simp [this]
      | false =>
        have : (0 + 2 * bitsToNat bs) % 2 = 0 := by omega
        simp [this]
    · have hdiv : ((if b then 1 else 0) + 2 * bitsToNat bs) / 2 = bitsToNat bs := by
        cases b <;> simp <;> omega
      rw [hdiv, ih]

theorem natToBits_bitsToNat_of_length (l : List Bool) (n : Nat)
    (h : l.length = n) : natToBits n (bitsToNat l) = l := by
  subst h; exact natToBits_bitsToNat l

theorem bitsToNat_lt (l : List Bool) : bitsToNat l < 2 ^ l.length := by
  induction l with
  | nil => simp [bitsToNat]
  | cons b bs ih =>
    simp only [bitsToNat, List.length_cons, pow_succ]
    cases b <;> simp <;> omega

theorem DynamicProofConfig.length_toBits (c : DynamicProofConfig) :
    c.toBits.length = 7 := rfl

-- Characterization of slice indexing used by the codec.

theorem slice_getD (l : List Bool) (s k : Nat) (d : Bool) (hk : k < 7) :
    ((l.drop s).take 7).getD k d = l.getD (s + k) d := by
  simp only [List.getD_eq_getElem?_getD]
  rw [List.getElem?_take_of_lt hk, List.getElem?_drop]

theorem unpackBits_getD (bits : List Bool) (j : Nat) :
    DynamicProofConfig.unpackBits bits j =
      { shouldVerify := bits.getD (j * 7) false
        requireRecipientMatch := bits.getD (j * 7 + 1) false
        requireTokenIdMatch := bits.getD (j * 7 + 2) false
        requireMinaBalanceMatch := bits.getD (j * 7 + 3) false
        requireCustomTokenBalanceMatch := bits.getD (j * 7 + 4) false
        requireMinaNonceMatch := bits.getD (j * 7 + 5) false
        requireCustomTokenNonceMatch := bits.getD (j * 7 + 6) false } := by
  unfold DynamicProofConfig.unpackBits
  have h0 := slice_getD bits (j * 7) 0 false (by omega)
  have h1 := slice_getD bits (j * 7) 1 false (by omega)
  have h2 := slice_getD bits (j * 7) 2 false (by omega)
  have h3 := slice_getD bits (j * 7) 3 false (by omega)
  have h4 := slice_getD bits (j * 7) 4 false (by omega)
  have h5 := slice_getD bits (j * 7) 5 false (by omega)
  have h6 := slice_getD bits (j * 7) 6 false (by omega)
  simp only [h0, h1, h2, h3, h4, h5, h6, Nat.add_zero]

theorem getD_splice_outside (bs mid : List Bool) (s m : Nat)
    (hmid : mid.length = 7) (hs : s + 7 ≤ bs.length)
    (hm : m < s ∨ s + 7 ≤ m) :
    (bs.take s ++ mid ++ bs.drop (s + 7)).getD m false = bs.getD m false := by
  have hts : (bs.take s).length = s := by
    simp [List.length_take]; omega
  have hab : (bs.take s ++ mid).length = s + 7 := by
    simp [List.length_append, hts, hmid]
  rcases hm with hm | hm
  · rw [List.getD_append _ _ _ _ (show m < (bs.take s ++ mid).length by omega)]
    rw [List.getD_append _ _ _ _ (show m < (bs.take s).length by omega)]
    simp only [List.getD_eq_getElem?_getD]
    rw [List.getElem?_take_of_lt hm]
  · rw [List.getD_append_right _ _ _ _
      (show (bs.take s ++ mid).length ≤ m by omega)]
    simp only [List.getD_eq_getElem?_getD, List.getElem?_drop]
    have hidx : s + 7 + (m - (bs.take s ++ mid).length) = m := by omega
    rw [hidx]

-- ===========================================================================
-- Lemmas: approval loop
-- ===========================================================================

theorem tokenDeltas_nil : tokenDeltas [] = [] := rfl

theorem tokenDeltas_cons (n : ApprovalNode) (ns : List ApprovalNode) :
    tokenDeltas (n :: ns) =
      if n.usesToken then n.balanceChange :: tokenDeltas ns
      else tokenDeltas ns := by
  cases hut : n.usesToken <;> simp [tokenDeltas, List.filter_cons, hut]

theorem approveLoop_append (addr : Nat) (t : Int)
    (l1 l2 : List ApprovalNode) :
    FungibleToken.approveLoop addr t (l1 ++ l2) =
      match FungibleToken.approveLoop addr t l1 with
      | .error e => .error e
      | .ok t2 => FungibleToken.approveLoop addr t2 l2 := by
  induction l1 generalizing t with
  | nil => simp [FungibleToken.approveLoop]
  | cons n ns ih =>
    simp only [List.cons_append, FungibleToken.approveLoop]
    cases FungibleToken.approveStep addr t n with
    | error e => rfl
    | ok t2 => exact ih t2

theorem circulation_check_false (addr : Nat) (n : ApprovalNode)
    (hcirc : ¬(n.publicKey = addr ∧ n.usesToken = true)) :
    (n.publicKey == addr && n.usesToken) = false := by
  by_cases h1 : n.publicKey = addr
  · by_cases h2 : n.usesToken = true
    · exact absurd ⟨h1, h2⟩ hcirc
    · simp [h2]
  · simp [h1]

theorem approveStep_ok (addr : Nat) (t : Int) (n : ApprovalNode)
    (hleg : nodeLegal addr n)
    (ht : (if n.usesToken then t + n.balanceChange else t) ≤ 0) :
    FungibleToken.approveStep addr t n =
      .ok (if n.usesToken then t + n.balanceChange else t) := by
  obtain ⟨hperm, hcirc⟩ := hleg
  have hcirc' := circulation_check_false addr n hcirc
  have hlt : ¬(0 < (if n.usesToken then t + n.balanceChange else t)) := by
    omega
  simp [FungibleToken.approveStep, hperm, hcirc', hlt]

theorem approveLoop_ok (addr : Nat) (updates : List ApprovalNode) :
    ∀ t0 : Int, (∀ n ∈ updates, nodeLegal addr n) →
    (∀ k : Nat, t0 + (tokenDeltas (updates.take k)).sum ≤ 0) →
    FungibleToken.approveLoop addr t0 updates =
      .ok (t0 + (tokenDeltas updates).sum) := by
  induction updates with
  | nil =>
    intro t0 _ _
    simp [FungibleToken.approveLoop, tokenDeltas]
  | cons n ns ih =>
    intro t0 hleg hpre
    have hlegn : nodeLegal addr n := hleg n (by simp)
    have ht1 : (if n.usesToken then t0 + n.balanceChange else t0) ≤ 0 := by
      have h := hpre 1
      rw [List.take_succ_cons, List.take_zero, tokenDeltas_cons] at h
      cases hut : n.usesToken <;> simp [hut, tokenDeltas_nil] at h <;>
        simp [hut] <;> omega
    have hstep := approveStep_ok addr t0 n hlegn ht1
    simp only [FungibleToken.approveLoop, hstep]
    have hrec := ih (if n.usesToken then t0 + n.balanceChange else t0)
      (fun m hm => hleg m (by simp [hm]))
      (fun k => by
        have h := hpre (k + 1)
        rw [List.take_succ_cons, tokenDeltas_cons] at h
        cases hut : n.usesToken <;> simp [hut] at h ⊢ <;> omega)
    rw [hrec, tokenDeltas_cons]
    cases hut : n.usesToken <;> simp [hut] <;> ring_nf

theorem approveStep_flash (addr : Nat) (t : Int) (n : ApprovalNode)
    (hleg : nodeLegal addr n)
    (hpos : 0 < (if n.usesToken then t + n.balanceChange else t)) :
    FungibleToken.approveStep addr t n =
      .error FungibleTokenErrors.flashMinting := by
  obtain ⟨hperm, hcirc⟩ := hleg
  have hcirc' := circulation_check_false addr n hcirc
  simp [FungibleToken.approveStep, hperm, hcirc', hpos]

theorem approveStep_circulation (addr : Nat) (t : Int) (n : ApprovalNode)
    (hperm : FungibleToken.checkPermissionsUpdateOk n = true)
    (hpk : n.publicKey = addr) (hut : n.usesToken = true) :
    FungibleToken.approveStep addr t n =
      .error FungibleTokenErrors.noTransferFromCirculation := by
  simp [FungibleToken.approveStep, hperm, hpk, hut]

theorem checkPermissionsUpdateOk_false (n : ApprovalNode)
    (hsome : n.permissions.isSome = true)
    (hbad : n.permissions.access ≠ AuthRequired.none ∨
      n.permissions.receive ≠ AuthRequired.none) :
    FungibleToken.checkPermissionsUpdateOk n = false := by
  unfold FungibleToken.checkPermissionsUpdateOk
  rcases hbad with h | h <;> simp [hsome, h]

theorem approveStep_permission (addr : Nat) (t : Int) (n : ApprovalNode)
    (h : FungibleToken.checkPermissionsUpdateOk n = false) :
    FungibleToken.approveStep addr t n =
      .error FungibleTokenErrors.noPermissionChangeAllowed := by
  simp [FungibleToken.approveStep, h]

theorem approveLoop_flash (addr : Nat) (updates : List ApprovalNode) :
    ∀ t0 : Int, (∀ n ∈ updates, nodeLegal addr n) → t0 ≤ 0 →
    (∃ d rest, tokenDeltas updates = d :: rest ∧ 0 < t0 + d) →
    FungibleToken.approveLoop addr t0 updates =
      .error FungibleTokenErrors.flashMinting := by
  induction updates with
  | nil =>
    intro t0 _ _ h
    obtain ⟨d, rest, hd, _⟩ := h
    simp [tokenDeltas] at hd
  | cons n ns ih =>
    intro t0 hleg ht0 h
    obtain ⟨d, rest, hd, hpos⟩ := h
    have hlegn : nodeLegal addr n := hleg n (by simp)
    rw [tokenDeltas_cons] at hd
    cases hut : n.usesToken with
    | false =>
      rw [hut] at hd
      simp only [if_neg Bool.false_ne_true] at hd
      have hstep : FungibleToken.approveStep addr t0 n = .ok t0 := by
        have := approveStep_ok addr t0 n hlegn (by simp [hut]; omega)
        simpa [hut] using this
      simp only [FungibleToken.approveLoop, hstep]
      exact ih t0 (fun m hm => hleg m (by simp [hm])) ht0 ⟨d, rest, hd, hpos⟩
    | true =>
      rw [hut] at hd
      simp only [if_pos rfl] at hd
      have hbc : n.balanceChange = d := (List.cons_eq_cons.mp hd).1
      have hstep := approveStep_flash addr t0 n hlegn
        (by simp [hut, hbc]; omega)
      simp [FungibleToken.approveLoop, hstep]

theorem unpack_def (p j : Nat) :
    DynamicProofConfig.unpack p j =
      DynamicProofConfig.unpackBits (natToBits 28 p) j := rfl

theorem updatePackedConfigs_def (c : DynamicProofConfig) (p i : Nat) :
    c.updatePackedConfigs p i =
      bitsToNat ((natToBits 28 p).take (i * 7) ++ c.toBits ++
        (natToBits 28 p).drop (i * 7 + 7)) := rfl

-- ===========================================================================
-- Claims
-- ===========================================================================

/-- C2: whenever the operation's config has `shouldVerify = false`,
`verifySideLoadedProof` accepts: no assertion can fail regardless of registry
root mismatch, missing or unregistered key, recipient/tokenId/balance/nonce
mismatches, or proof content, and no cryptographic proof verification is
performed (the returned flag is `false`). -/
theorem c2_shortcut_invariance (env : ChainEnv) (st : ContractState)
    (proof : SideloadedProof) (vk : VerificationKey) (recipient : Nat)
    (dynamicProofConfig : DynamicProofConfig) (vKeyMap : VKeyMerkleMap)
    (operationKey : Nat)
    (h : dynamicProofConfig.shouldVerify = false) :
    FungibleToken.verifySideLoadedProof env st proof vk recipient
      dynamicProofConfig vKeyMap operationKey = .ok false := by
  simp [FungibleToken.verifySideLoadedProof, h]

/-- C2 witness: a stale root, empty key map, wrong key hash, mismatching
recipient/balances/nonces and all match flags set — still accepted with no
verification, because `shouldVerify = false`. -/
theorem c2_shortcut_invariance_witness :
    FungibleToken.verifySideLoadedProof envW stStaleW proofW vkW 4
      cfgNoVerify mapW OperationKeys.Mint = .ok false :=
  c2_shortcut_invariance envW stStaleW proofW vkW 4 cfgNoVerify mapW
    OperationKeys.Mint rfl

/-- C8: each direct-mode entry point (`mint`, `burn`, `transferCustom`,
`approveBaseCustom`) fails with the side-load-required error whenever the
corresponding operation's unpacked config has `shouldVerify = true`; the
failure means no balance mutation is performed. -/
theorem c8_direct_mode_requires_sideload_disabled :
    (∀ (env : ChainEnv) (st : ContractState) (recipient amount : Nat),
      (DynamicProofConfig.unpack st.packedDynamicProofConfigs 0).shouldVerify =
        true →
      FungibleToken.mint env st recipient amount =
        .error FungibleTokenErrors.noPermissionForSideloadDisabledOperation) ∧
    (∀ (env : ChainEnv) (st : ContractState) (source amount : Nat),
      (DynamicProofConfig.unpack st.packedDynamicProofConfigs 1).shouldVerify =
        true →
      FungibleToken.burn env st source amount =
        .error FungibleTokenErrors.noPermissionForSideloadDisabledOperation) ∧
    (∀ (env : ChainEnv) (st : ContractState) (source receiver amount : Nat),
      (DynamicProofConfig.unpack st.packedDynamicProofConfigs 2).shouldVerify =
        true →
      FungibleToken.transferCustom env st source receiver amount =
        .error FungibleTokenErrors.noPermissionForSideloadDisabledOperation) ∧
    (∀ (env : ChainEnv) (st : ContractState) (updates : List ApprovalNode),
      (DynamicProofConfig.unpack st.packedDynamicProofConfigs 3).shouldVerify =
        true →
      FungibleToken.approveBaseCustom env st updates =
        .error FungibleTokenErrors.noPermissionForSideloadDisabledOperation) := by
  refine ⟨?_, ?_, ?_, ?_⟩
  · intro env st recipient amount h
    simp [FungibleToken.mint, h]
  · intro env st source amount h
    simp [FungibleToken.burn, h]
  · intro env st source receiver amount h
    simp [FungibleToken.transferCustom, h]
  · intro env st updates h
    simp [FungibleToken.approveBaseCustom, h]

/-- C8 witness: with packed configs `2113665` (all four `shouldVerify` bits
set) every direct entry point rejects. -/
theorem c8_direct_mode_requires_sideload_disabled_witness :
    FungibleToken.mint envW stSLW 3 10 =
      .error FungibleTokenErrors.noPermissionForSideloadDisabledOperation ∧
    FungibleToken.burn envW stSLW 3 10 =
      .error FungibleTokenErrors.noPermissionForSideloadDisabledOperation ∧
    FungibleToken.transferCustom envW stSLW 3 4 10 =
      .error FungibleTokenErrors.noPermissionForSideloadDisabledOperation ∧
    FungibleToken.approveBaseCustom envW stSLW [nodeP, nodeN] =
      .error FungibleTokenErrors.noPermissionForSideloadDisabledOperation :=
  ⟨c8_direct_mode_requires_sideload_disabled.1 envW stSLW 3 10 (by decide),
   c8_direct_mode_requires_sideload_disabled.2.1 envW stSLW 3 10 (by decide),
   c8_direct_mode_requires_sideload_disabled.2.2.1 envW stSLW 3 4 10 (by decide),
   c8_direct_mode_requires_sideload_disabled.2.2.2 envW stSLW [nodeP, nodeN]
     rfl⟩

/-- C4: unpacking segment `i` of `packConfigs [r0, r1, r2, r3]` returns a
record whose 7 flags equal those of `ri`, for every `i` in {0,1,2,3}. -/
theorem c4_codec_round_trip (r0 r1 r2 r3 : DynamicProofConfig) (p : Nat)
    (h : DynamicProofConfig.packConfigs [r0, r1, r2, r3] = .ok p) :
    DynamicProofConfig.unpack p 0 = r0 ∧ DynamicProofConfig.unpack p 1 = r1 ∧
    DynamicProofConfig.unpack p 2 = r2 ∧ DynamicProofConfig.unpack p 3 = r3 := by
  have hp0 : DynamicProofConfig.packConfigs [r0, r1, r2, r3] =
      .ok (bitsToNat
        (r0.toBits ++ (r1.toBits ++ (r2.toBits ++ (r3.toBits ++ []))))) := rfl
  rw [hp0] at h
  have hp :
      bitsToNat (r0.toBits ++ (r1.toBits ++ (r2.toBits ++ (r3.toBits ++ [])))) =
        p := by injection h
  subst hp
  have hlen :
      (r0.toBits ++ (r1.toBits ++ (r2.toBits ++ (r3.toBits ++ [])))).length =
        28 := by
    simp [DynamicProofConfig.length_toBits]
  refine ⟨?_, ?_, ?_, ?_⟩ <;>
    (rw [unpack_def, natToBits_bitsToNat_of_length _ _ hlen, unpackBits_getD]
     simp [DynamicProofConfig.toBits])

/-- C4 witness: a concrete 4-tuple of distinct records round-trips through
the packed scalar. -/
theorem c4_codec_round_trip_witness :
    DynamicProofConfig.unpack 266354815 0 = cfgAllTrue ∧
    DynamicProofConfig.unpack 266354815 1 = cfgAllFalse ∧
    DynamicProofConfig.unpack 266354815 2 = cfgSVOnly ∧
    DynamicProofConfig.unpack 266354815 3 = cfgAllTrue :=
  c4_codec_round_trip cfgAllTrue cfgAllFalse cfgSVOnly cfgAllTrue 266354815
    (by rfl)

/-- C5: for every 28-bit packed scalar, replacing one 7-bit segment via
`updatePackedConfigs` leaves every other segment unchanged; and the packed
scalar computed by the contract method `updateDynamicProofConfig` for
operation type `op` coincides with `updatePackedConfigs` at segment `op - 1`. -/
theorem c5_segment_isolation :
    (∀ p : Nat, p < 2 ^ 28 → ∀ (r : DynamicProofConfig) (i j : Nat),
      i < 4 → j < 4 → i ≠ j →
      DynamicProofConfig.unpack (r.updatePackedConfigs p i) j =
        DynamicProofConfig.unpack p j) ∧
    (∀ (p : Nat) (r : DynamicProofConfig) (opType : Nat),
      opType = 1 ∨ opType = 2 ∨ opType = 3 ∨ opType = 4 →
      FungibleToken.contractNewPackedConfig opType r p =
        r.updatePackedConfigs p (opType - 1)) := by
  constructor
  · intro p _ r i j hi hj hij
    have hlen : (natToBits 28 p).length = 28 := length_natToBits 28 p
    have hsplice :
        ((natToBits 28 p).take (i * 7) ++ r.toBits ++
          (natToBits 28 p).drop (i * 7 + 7)).length = 28 := by
      simp only [List.length_append, List.length_take, List.length_drop, hlen,
        DynamicProofConfig.length_toBits]
      omega
    rw [unpack_def, unpack_def, updatePackedConfigs_def,
      natToBits_bitsToNat_of_length _ _ hsplice, unpackBits_getD,
      unpackBits_getD]
    have hiso : ∀ m : Nat, j * 7 ≤ m → m < j * 7 + 7 →
        ((natToBits 28 p).take (i * 7) ++ r.toBits ++
          (natToBits 28 p).drop (i * 7 + 7)).getD m false =
          (natToBits 28 p).getD m false := by
      intro m hm1 hm2
      exact getD_splice_outside (natToBits 28 p) r.toBits (i * 7) m
        (DynamicProofConfig.length_toBits r) (by omega) (by omega)
    congr 1 <;> exact hiso _ (by omega) (by omega)
  · intro p r opType hop
    have hlen : (natToBits 28 p).length = 28 := length_natToBits 28 p
    have h7 : List.take 21 (List.drop 7 (natToBits 28 p)) =
        List.drop 7 (natToBits 28 p) :=
      List.take_of_length_le (by simp [hlen])
    have h14 : List.take 14 (List.drop 14 (natToBits 28 p)) =
        List.drop 14 (natToBits 28 p) :=
      List.take_of_length_le (by simp [hlen])
    have h21 : List.take 7 (List.drop 21 (natToBits 28 p)) =
        List.drop 21 (natToBits 28 p) :=
      List.take_of_length_le (by simp [hlen])
    have h28 : List.drop 28 (natToBits 28 p) = [] :=
      List.drop_eq_nil_of_le (by simp [hlen])
    rcases hop with rfl | rfl | rfl | rfl
    · rw [updatePackedConfigs_def]
      simp only [FungibleToken.contractNewPackedConfig, OperationKeys.Mint]
      norm_num
      rw [h7]
    · rw [updatePackedConfigs_def]
      simp only [FungibleToken.contractNewPackedConfig, OperationKeys.Mint,
        OperationKeys.Burn]
      norm_num
      rw [h14]
    · rw [updatePackedConfigs_def]
      simp only [FungibleToken.contractNewPackedConfig, OperationKeys.Mint,
        OperationKeys.Burn, OperationKeys.Transfer]
      norm_num
      rw [h21]
    · rw [updatePackedConfigs_def]
      simp only [FungibleToken.contractNewPackedConfig, OperationKeys.Mint,
        OperationKeys.Burn, OperationKeys.Transfer, OperationKeys.ApproveBase]
      norm_num
      rw [h28, List.append_nil]

/-- C1: in `internalApproveBase` the nodes are folded in traversal order and
after every node the running signed total over token-touching nodes is
asserted not strictly positive, rejecting with the flash-minting error the
moment it becomes positive; in particular every forest of nodes passing the
per-node permission and circulation checks whose token-touching deltas in
traversal order are `[+100, -100]` is rejected with the flash-minting error
even though the final sum is zero. -/
theorem c1_flash_mint_prefix_law :
    (∀ (addr : Nat) (l1 : List ApprovalNode) (n : ApprovalNode)
        (l2 : List ApprovalNode) (t : Int),
      FungibleToken.approveLoop addr 0 l1 = .ok t →
      nodeLegal addr n →
      0 < (if n.usesToken then t + n.balanceChange else t) →
      FungibleToken.internalApproveBase addr (l1 ++ n :: l2) =
        .error FungibleTokenErrors.flashMinting) ∧
    (∀ (addr : Nat) (updates : List ApprovalNode),
      (∀ n ∈ updates, nodeLegal addr n) →
      tokenDeltas updates = [100, -100] →
      FungibleToken.internalApproveBase addr updates =
        .error FungibleTokenErrors.flashMinting) := by
  constructor
  · intro addr l1 n l2 t hl1 hleg hpos
    have hstep := approveStep_flash addr t n hleg hpos
    simp [FungibleToken.internalApproveBase, approveLoop_append, hl1,
      FungibleToken.approveLoop, hstep]
  · intro addr updates hleg hd
    have hflash := approveLoop_flash addr updates 0 hleg le_rfl
      ⟨100, [-100], hd, by omega⟩
    simp [FungibleToken.internalApproveBase, hflash]

/-- C1 witness: both parts at concrete forests (`[+100, -100]` deltas). -/
theorem c1_flash_mint_prefix_law_witness :
    FungibleToken.internalApproveBase 0 ([] ++ nodeP :: [nodeN]) =
      .error FungibleTokenErrors.flashMinting ∧
    FungibleToken.internalApproveBase 0 [nodeP, nodeN] =
      .error FungibleTokenErrors.flashMinting :=
  ⟨c1_flash_mint_prefix_law.1 0 [] nodeP [nodeN] 0 rfl (by decide) (by decide),
   c1_flash_mint_prefix_law.2 0 [nodeP, nodeN] (by decide) (by decide)⟩

/-- C3 counterexample: the claim requires the unbalanced-transaction error
for every forest with non-zero final sum "regardless of per-node legality",
and acceptance for every forest with zero sum and no positive prefix; the
code instead (a) rejects the legal one-node forest `[+100]` (sum `100 ≠ 0`)
with the flash-minting error, not the unbalanced-transaction error, and
(b) rejects a forest whose token deltas are empty (sum zero, no positive
prefix) with the permission-change error because a foreign-token node
requests a `signature` access permission. -/
theorem c3_conservation_counterexample :
    FungibleToken.internalApproveBase 0 [nodeP] =
      .error FungibleTokenErrors.flashMinting ∧
    FungibleTokenErrors.flashMinting ≠
      FungibleTokenErrors.unbalancedTransaction ∧
    (tokenDeltas [nodeP]).sum = 100 ∧
    FungibleToken.internalApproveBase 0 [nodeBadPerm] =
      .error FungibleTokenErrors.noPermissionChangeAllowed ∧
    tokenDeltas [nodeBadPerm] = [] :=
  ⟨rfl, by decide, by decide, rfl, by decide⟩

/-- C3 amended: for forests all of whose nodes pass the per-node permission
and circulation checks and whose token-delta running prefixes never exceed
zero, batch approval accepts exactly when the final sum is zero and rejects
with the unbalanced-transaction error when the final sum is non-zero
(forests reaching a positive running prefix are rejected earlier with the
flash-minting error, per C1). -/
theorem c3_conservation_amended :
    (∀ (addr : Nat) (updates : List ApprovalNode),
      (∀ n ∈ updates, nodeLegal addr n) →
      (∀ k : Nat, k ≤ updates.length →
        (tokenDeltas (updates.take k)).sum ≤ 0) →
      (tokenDeltas updates).sum = 0 →
      FungibleToken.internalApproveBase addr updates = .ok ()) ∧
    (∀ (addr : Nat) (updates : List ApprovalNode),
      (∀ n ∈ updates, nodeLegal addr n) →
      (∀ k : Nat, k ≤ updates.length →
        (tokenDeltas (updates.take k)).sum ≤ 0) →
      (tokenDeltas updates).sum ≠ 0 →
      FungibleToken.internalApproveBase addr updates =
        .error FungibleTokenErrors.unbalancedTransaction) := by
  have hfull : ∀ (updates : List ApprovalNode),
      (∀ k : Nat, k ≤ updates.length →
        (tokenDeltas (updates.take k)).sum ≤ 0) →
      ∀ k : Nat, (tokenDeltas (updates.take k)).sum ≤ 0 := by
    intro updates hpre k
    rcases le_or_lt k updates.length with h | h
    · exact hpre k h
    · rw [List.take_of_length_le (by omega)]
      have := hpre updates.length le_rfl
      rwa [List.take_length] at this
  constructor
  · intro addr updates hleg hpre hsum
    have hloop := approveLoop_ok addr updates 0 hleg
      (fun k => by have := hfull updates hpre k; omega)
    rw [hsum] at hloop
    simp [FungibleToken.internalApproveBase, hloop]
  · intro addr updates hleg hpre hsum
    have hloop := approveLoop_ok addr updates 0 hleg
      (fun k => by have := hfull updates hpre k; omega)
    simp [FungibleToken.internalApproveBase, hloop, hsum]

/-- C3 witness: deltas `[-100, +100]` (zero sum, no positive prefix) accept;
the single legal node `[-100]` (non-zero sum, no positive prefix) rejects as
unbalanced. -/
theorem c3_conservation_amended_witness :
    FungibleToken.internalApproveBase 0 [nodeN, nodeP] = .ok () ∧
    FungibleToken.internalApproveBase 0 [nodeN] =
      .error FungibleTokenErrors.unbalancedTransaction :=
  ⟨c3_conservation_amended.1 0 [nodeN, nodeP] (by decide) (by decide)
      (by decide),
   c3_conservation_amended.2 0 [nodeN] (by decide) (by decide) (by decide)⟩

/-- C6: both `mint` and `mintWithProof` run the shared internal mint path,
which unconditionally imposes the admin signature requirement (first effect
of every successful trace, ahead of the balance mutation); proof verification
never replaces it. -/
theorem c6_mint_requires_admin_signature :
    (∀ (env : ChainEnv) (st : ContractState) (recipient amount : Nat)
        (tr : List TxAction),
      FungibleToken.mint env st recipient amount = .ok tr →
      tr = [TxAction.requireSignature st.admin,
        TxAction.mintTokens recipient amount]) ∧
    (∀ (env : ChainEnv) (st : ContractState) (recipient amount : Nat)
        (proof : SideloadedProof) (vk : VerificationKey)
        (vKeyMap : VKeyMerkleMap) (tr : List TxAction),
      FungibleToken.mintWithProof env st recipient amount proof vk vKeyMap =
        .ok tr →
      tr = [TxAction.requireSignature st.admin,
        TxAction.mintTokens recipient amount]) := by
  have hint : ∀ (env : ChainEnv) (st : ContractState) (recipient amount : Nat)
      (tr : List TxAction),
      FungibleToken.internalMint env st recipient amount = .ok tr →
      tr = [TxAction.requireSignature st.admin,
        TxAction.mintTokens recipient amount] := by
    intro env st recipient amount tr h
    by_cases hr : recipient = env.contractAddress
    · simp [FungibleToken.internalMint, hr] at h
    · simp [FungibleToken.internalMint, hr] at h
      exact h.symm
  constructor
  · intro env st recipient amount tr h
    by_cases hsv :
        (DynamicProofConfig.unpack st.packedDynamicProofConfigs 0).shouldVerify
    · simp [FungibleToken.mint, hsv] at h
    · simp only [FungibleToken.mint, hsv, Bool.false_eq_true,
        if_false] at h
      exact hint env st recipient amount tr h
  · intro env st recipient amount proof vk vKeyMap tr h
    rcases hv : FungibleToken.verifySideLoadedProof env st proof vk recipient
        (DynamicProofConfig.unpack st.packedDynamicProofConfigs 0) vKeyMap
        OperationKeys.Mint with e | b
    · simp [FungibleToken.mintWithProof, hv] at h
    · simp only [FungibleToken.mintWithProof, hv] at h
      exact hint env st recipient amount tr h

/-- C6 witness: both entry modes at a concrete state produce the admin
signature requirement ahead of the mint. -/
theorem c6_mint_requires_admin_signature_witness :
    FungibleToken.mint envW stW 3 10 =
      .ok [TxAction.requireSignature 9, TxAction.mintTokens 3 10] ∧
    ([TxAction.requireSignature 9, TxAction.mintTokens 3 10] =
      [TxAction.requireSignature stW.admin, TxAction.mintTokens 3 10]) ∧
    FungibleToken.mintWithProof envW stW 3 10 proofW vkW mapW =
      .ok [TxAction.requireSignature 9, TxAction.mintTokens 3 10] ∧
    ([TxAction.requireSignature 9, TxAction.mintTokens 3 10] =
      [TxAction.requireSignature stW.admin, TxAction.mintTokens 3 10]) :=
  ⟨rfl, c6_mint_requires_admin_signature.1 envW stW 3 10 _ rfl, rfl,
    c6_mint_requires_admin_signature.2 envW stW 3 10 proofW vkW mapW _ rfl⟩

/-- C7: the circulation-tracking account (the contract's own address) can be
neither the recipient of mint, the source of burn, an endpoint of
transferCustom, nor the owner of a token-touching node of an approved batch —
in direct mode (given the direct-mode side-load gate passes) and in proof
mode (given the proof verification passes), the attempt fails with the
no-transfer-from-circulation error. -/
theorem c7_circulation_account_protected :
    (∀ (env : ChainEnv) (st : ContractState) (amount : Nat),
      (DynamicProofConfig.unpack st.packedDynamicProofConfigs 0).shouldVerify =
        false →
      FungibleToken.mint env st env.contractAddress amount =
        .error FungibleTokenErrors.noTransferFromCirculation) ∧
    (∀ (env : ChainEnv) (st : ContractState) (amount : Nat)
        (proof : SideloadedProof) (vk : VerificationKey)
        (vKeyMap : VKeyMerkleMap) (b : Bool),
      FungibleToken.verifySideLoadedProof env st proof vk env.contractAddress
        (DynamicProofConfig.unpack st.packedDynamicProofConfigs 0) vKeyMap
        OperationKeys.Mint = .ok b →
      FungibleToken.mintWithProof env st env.contractAddress amount proof vk
        vKeyMap = .error FungibleTokenErrors.noTransferFromCirculation) ∧
    (∀ (env : ChainEnv) (st : ContractState) (amount : Nat),
      (DynamicProofConfig.unpack st.packedDynamicProofConfigs 1).shouldVerify =
        false →
      FungibleToken.burn env st env.contractAddress amount =
        .error FungibleTokenErrors.noTransferFromCirculation) ∧
    (∀ (env : ChainEnv) (st : ContractState) (amount : Nat)
        (proof : SideloadedProof) (vk : VerificationKey)
        (vKeyMap : VKeyMerkleMap) (b : Bool),
      FungibleToken.verifySideLoadedProof env st proof vk env.contractAddress
        (DynamicProofConfig.unpack st.packedDynamicProofConfigs 1) vKeyMap
        OperationKeys.Burn = .ok b →
      FungibleToken.burnWithProof env st env.contractAddress amount proof vk
        vKeyMap = .error FungibleTokenErrors.noTransferFromCirculation) ∧
    (∀ (env : ChainEnv) (st : ContractState) (source receiver amount : Nat),
      (DynamicProofConfig.unpack st.packedDynamicProofConfigs 2).shouldVerify =
        false →
      (source = env.contractAddress ∨ receiver = env.contractAddress) →
      FungibleToken.transferCustom env st source receiver amount =
        .error FungibleTokenErrors.noTransferFromCirculation) ∧
    (∀ (env : ChainEnv) (st : ContractState) (source receiver amount : Nat)
        (proof : SideloadedProof) (vk : VerificationKey)
        (vKeyMap : VKeyMerkleMap) (b : Bool),
      FungibleToken.verifySideLoadedProof env st proof vk source
        (DynamicProofConfig.unpack st.packedDynamicProofConfigs 2) vKeyMap
        OperationKeys.Transfer = .ok b →
      (source = env.contractAddress ∨ receiver = env.contractAddress) →
      FungibleToken.transferCustomWithProof env st source receiver amount
        proof vk vKeyMap =
        .error FungibleTokenErrors.noTransferFromCirculation) ∧
    (∀ (env : ChainEnv) (st : ContractState) (l1 : List ApprovalNode)
        (n : ApprovalNode) (l2 : List ApprovalNode) (t : Int),
      (DynamicProofConfig.unpack st.packedDynamicProofConfigs 3).shouldVerify =
        false →
      FungibleToken.approveLoop env.contractAddress 0 l1 = .ok t →
      FungibleToken.checkPermissionsUpdateOk n = true →
      n.publicKey = env.contractAddress → n.usesToken = true →
      FungibleToken.approveBaseCustom env st (l1 ++ n :: l2) =
        .error FungibleTokenErrors.noTransferFromCirculation) ∧
    (∀ (env : ChainEnv) (st : ContractState) (l1 : List ApprovalNode)
        (n : ApprovalNode) (l2 : List ApprovalNode) (t : Int)
        (proof : SideloadedProof) (vk : VerificationKey)
        (vKeyMap : VKeyMerkleMap) (b : Bool),
      FungibleToken.verifySideLoadedProof env st proof vk emptyPublicKey
        (DynamicProofConfig.unpack st.packedDynamicProofConfigs 3) vKeyMap
        OperationKeys.ApproveBase = .ok b →
      FungibleToken.approveLoop env.contractAddress 0 l1 = .ok t →
      FungibleToken.checkPermissionsUpdateOk n = true →
      n.publicKey = env.contractAddress → n.usesToken = true →
      FungibleToken.approveBaseCustomWithProof env st (l1 ++ n :: l2) proof vk
        vKeyMap = .error FungibleTokenErrors.noTransferFromCirculation) := by
  refine ⟨?_, ?_, ?_, ?_, ?_, ?_, ?_, ?_⟩
  · intro env st amount h
    simp [FungibleToken.mint, h, FungibleToken.internalMint]
  · intro env st amount proof vk vKeyMap b hv
    simp [FungibleToken.mintWithProof, hv, FungibleToken.internalMint]
  · intro env st amount h
    simp [FungibleToken.burn, h, FungibleToken.internalBurn]
  · intro env st amount proof vk vKeyMap b hv
    simp [FungibleToken.burnWithProof, hv, FungibleToken.internalBurn]
  · intro env st source receiver amount h hend
    rcases hend with rfl | rfl
    · simp [FungibleToken.transferCustom, h, FungibleToken.internalTransfer]
    · by_cases hs : source = env.contractAddress <;>
        simp [FungibleToken.transferCustom, h, FungibleToken.internalTransfer,
          hs]
  · intro env st source receiver amount proof vk vKeyMap b hv hend
    rcases hend with rfl | rfl
    · simp [FungibleToken.transferCustomWithProof, hv,
        FungibleToken.internalTransfer]
    · by_cases hs : source = env.contractAddress
      · subst hs
        simp [FungibleToken.transferCustomWithProof, hv,
          FungibleToken.internalTransfer]
      · simp [FungibleToken.transferCustomWithProof, hv,
          FungibleToken.internalTransfer, hs]
  · intro env st l1 n l2 t hsv hl1 hperm hpk hut
    have hstep := approveStep_circulation env.contractAddress t n hperm hpk hut
    simp [FungibleToken.approveBaseCustom, hsv,
      FungibleToken.internalApproveBase, approveLoop_append, hl1,
      FungibleToken.approveLoop, hstep]
  · intro env st l1 n l2 t proof vk vKeyMap b hv hl1 hperm hpk hut
    have hstep := approveStep_circulation env.contractAddress t n hperm hpk hut
    simp [FungibleToken.approveBaseCustomWithProof, hv,
      FungibleToken.internalApproveBase, approveLoop_append, hl1,
      FungibleToken.approveLoop, hstep]

/-- C7 witness: all eight entry paths at a concrete state whose configs have
`shouldVerify = false` everywhere (so direct gates pass and proof
verification accepts), attempting to use the circulation account. -/
theorem c7_circulation_account_protected_witness :
    FungibleToken.mint envW stW envW.contractAddress 10 =
      .error FungibleTokenErrors.noTransferFromCirculation ∧
    FungibleToken.mintWithProof envW stW envW.contractAddress 10 proofW vkW
      mapW = .error FungibleTokenErrors.noTransferFromCirculation ∧
    FungibleToken.burn envW stW envW.contractAddress 10 =
      .error FungibleTokenErrors.noTransferFromCirculation ∧
    FungibleToken.burnWithProof envW stW envW.contractAddress 10 proofW vkW
      mapW = .error FungibleTokenErrors.noTransferFromCirculation ∧
    FungibleToken.transferCustom envW stW envW.contractAddress 3 10 =
      .error FungibleTokenErrors.noTransferFromCirculation ∧
    FungibleToken.transferCustomWithProof envW stW 3 envW.contractAddress 10
      proofW vkW mapW = .error FungibleTokenErrors.noTransferFromCirculation ∧
    FungibleToken.approveBaseCustom envW stW ([] ++ nodeCirc :: []) =
      .error FungibleTokenErrors.noTransferFromCirculation ∧
    FungibleToken.approveBaseCustomWithProof envW stW ([] ++ nodeCirc :: [])
      proofW vkW mapW =
      .error FungibleTokenErrors.noTransferFromCirculation :=
  ⟨c7_circulation_account_protected.1 envW stW 10 rfl,
   c7_circulation_account_protected.2.1 envW stW 10 proofW vkW mapW false rfl,
   c7_circulation_account_protected.2.2.1 envW stW 10 rfl,
   c7_circulation_account_protected.2.2.2.1 envW stW 10 proofW vkW mapW false
     rfl,
   c7_circulation_account_protected.2.2.2.2.1 envW stW envW.contractAddress 3
     10 rfl (Or.inl rfl),
   c7_circulation_account_protected.2.2.2.2.2.1 envW stW 3 envW.contractAddress
     10 proofW vkW mapW false rfl (Or.inr rfl),
   c7_circulation_account_protected.2.2.2.2.2.2.1 envW stW [] nodeCirc [] 0
     rfl rfl rfl rfl rfl,
   c7_circulation_account_protected.2.2.2.2.2.2.2 envW stW [] nodeCirc [] 0
     proofW vkW mapW false rfl rfl rfl rfl rfl⟩

/-- C9: `updateSideLoadedVKeyHash` (with an in-sync off-chain map replica)
fails with the invalid-operation-key error for every operation key outside
{1 (Mint), 2 (Burn), 3 (Transfer), 4 (ApproveBase)}, and for keys inside the
set it succeeds, registering the key hash and publishing the new root. -/
theorem c9_operation_key_validation :
    (∀ (st : ContractState) (vKey : VerificationKey)
        (vKeyMap : VKeyMerkleMap) (operationKey : Nat),
      st.vKeyMapRoot = vKeyMap.root →
      operationKey ≠ 1 → operationKey ≠ 2 → operationKey ≠ 3 →
      operationKey ≠ 4 →
      FungibleToken.updateSideLoadedVKeyHash st vKey vKeyMap operationKey =
        .error FungibleTokenErrors.invalidOperationKey) ∧
    (∀ (st : ContractState) (vKey : VerificationKey)
        (vKeyMap : VKeyMerkleMap) (operationKey : Nat),
      st.vKeyMapRoot = vKeyMap.root →
      operationKey = 1 ∨ operationKey = 2 ∨ operationKey = 3 ∨
        operationKey = 4 →
      FungibleToken.updateSideLoadedVKeyHash st vKey vKeyMap operationKey =
        .ok ({ st with
          vKeyMapRoot := (vKeyMap.set operationKey vKey.hash).root },
          vKeyMap.set operationKey vKey.hash) ∧
      (vKeyMap.set operationKey vKey.hash).getOption operationKey =
        some vKey.hash) := by
  constructor
  · intro st vKey vKeyMap operationKey hroot h1 h2 h3 h4
    simp [FungibleToken.updateSideLoadedVKeyHash, hroot, OperationKeys.Mint,
      OperationKeys.Burn, OperationKeys.Transfer, OperationKeys.ApproveBase,
      h1, h2, h3, h4]
  · intro st vKey vKeyMap operationKey hroot hop
    constructor
    · rcases hop with rfl | rfl | rfl | rfl <;>
        simp [FungibleToken.updateSideLoadedVKeyHash, hroot,
          OperationKeys.Mint, OperationKeys.Burn, OperationKeys.Transfer,
          OperationKeys.ApproveBase]
    · simp [VKeyMerkleMap.getOption, VKeyMerkleMap.set]

/-- C9 witness: key 7 rejects, key 1 (Mint) registers hash 77. -/
theorem c9_operation_key_validation_witness :
    FungibleToken.updateSideLoadedVKeyHash stW vkW mapW 7 =
      .error FungibleTokenErrors.invalidOperationKey ∧
    (FungibleToken.updateSideLoadedVKeyHash stW vkW mapW 1 =
      .ok ({ stW with vKeyMapRoot := (mapW.set 1 vkW.hash).root },
        mapW.set 1 vkW.hash) ∧
      (mapW.set 1 vkW.hash).getOption 1 = some vkW.hash) :=
  ⟨c9_operation_key_validation.1 stW vkW mapW 7 rfl (by decide) (by decide)
      (by decide) (by decide),
   c9_operation_key_validation.2 stW vkW mapW 1 rfl (Or.inl rfl)⟩

/-- C10: in batch approval the permission-pinning check covers every account
update in the forest, including updates that do not use this contract's token
(no `usesToken` restriction appears in the hypotheses): any reached node
whose update sets a non-`none` access or receive permission aborts the whole
batch, in direct and in proof mode. -/
theorem c10_permission_pinning_all_nodes :
    (∀ (env : ChainEnv) (st : ContractState) (l1 : List ApprovalNode)
        (n : ApprovalNode) (l2 : List ApprovalNode) (t : Int),
      (DynamicProofConfig.unpack st.packedDynamicProofConfigs 3).shouldVerify =
        false →
      FungibleToken.approveLoop env.contractAddress 0 l1 = .ok t →
      n.permissions.isSome = true →
      (n.permissions.access ≠ AuthRequired.none ∨
        n.permissions.receive ≠ AuthRequired.none) →
      FungibleToken.approveBaseCustom env st (l1 ++ n :: l2) =
        .error FungibleTokenErrors.noPermissionChangeAllowed) ∧
    (∀ (env : ChainEnv) (st : ContractState) (l1 : List ApprovalNode)
        (n : ApprovalNode) (l2 : List ApprovalNode) (t : Int)
        (proof : SideloadedProof) (vk : VerificationKey)
        (vKeyMap : VKeyMerkleMap) (b : Bool),
      FungibleToken.verifySideLoadedProof env st proof vk emptyPublicKey
        (DynamicProofConfig.unpack st.packedDynamicProofConfigs 3) vKeyMap
        OperationKeys.ApproveBase = .ok b →
      FungibleToken.approveLoop env.contractAddress 0 l1 = .ok t →
      n.permissions.isSome = true →
      (n.permissions.access ≠ AuthRequired.none ∨
        n.permissions.receive ≠ AuthRequired.none) →
      FungibleToken.approveBaseCustomWithProof env st (l1 ++ n :: l2) proof vk
        vKeyMap = .error FungibleTokenErrors.noPermissionChangeAllowed) := by
  constructor
  · intro env st l1 n l2 t hsv hl1 hsome hbad
    have hstep := approveStep_permission env.contractAddress t n
      (checkPermissionsUpdateOk_false n hsome hbad)
    simp [FungibleToken.approveBaseCustom, hsv,
      FungibleToken.internalApproveBase, approveLoop_append, hl1,
      FungibleToken.approveLoop, hstep]
  · intro env st l1 n l2 t proof vk vKeyMap b hv hl1 hsome hbad
    have hstep := approveStep_permission env.contractAddress t n
      (checkPermissionsUpdateOk_false n hsome hbad)
    simp [FungibleToken.approveBaseCustomWithProof, hv,
      FungibleToken.internalApproveBase, approveLoop_append, hl1,
      FungibleToken.approveLoop, hstep]

/-- C10 witness: a node touching only foreign tokens (`usesToken = false`)
that requests `signature` access permission aborts the batch in both modes. -/
theorem c10_permission_pinning_all_nodes_witness :
    FungibleToken.approveBaseCustom envW stW ([] ++ nodeBadPerm :: []) =
      .error FungibleTokenErrors.noPermissionChangeAllowed ∧
    FungibleToken.approveBaseCustomWithProof envW stW
      ([] ++ nodeBadPerm :: []) proofW vkW mapW =
      .error FungibleTokenErrors.noPermissionChangeAllowed :=
  ⟨c10_permission_pinning_all_nodes.1 envW stW [] nodeBadPerm [] 0 rfl rfl rfl
      (Or.inl (by decide)),
   c10_permission_pinning_all_nodes.2 envW stW [] nodeBadPerm [] 0 proofW vkW
      mapW false rfl rfl rfl (Or.inl (by decide))⟩

/-- C5 witness: replacing the Mint segment of packed scalar 2113665 leaves
the Burn segment unchanged, and the contract path agrees with
`updatePackedConfigs`. -/
theorem c5_segment_isolation_witness :
    DynamicProofConfig.unpack
        (DynamicProofConfig.updatePackedConfigs cfgAllTrue 2113665 0) 1 =
      DynamicProofConfig.unpack 2113665 1 ∧
    FungibleToken.contractNewPackedConfig 1 cfgAllTrue 2113665 =
      DynamicProofConfig.updatePackedConfigs cfgAllTrue 2113665 0 :=
  ⟨c5_segment_isolation.1 2113665 (by decide) cfgAllTrue 0 1 (by decide)
      (by decide) (by decide),
   c5_segment_isolation.2 2113665 cfgAllTrue 1 (Or.inl rfl)⟩
